import Mathlib

/-!
Shallow embedding of `gpio.go` (Linux GPIO character-device queries over the
kernel uAPI) and proofs about it.

Machine integers are modelled as `Nat` (with explicit `% 2^w` where the code
truncates); the C struct memory that `C.GoString` scans is modelled as a flat
list of byte values in declaration order (little-endian, as on the target
platform); the results of the two `ioctl` calls are passed in explicitly as
oracles (return status, errno after the call, and the struct the kernel
filled); Go runtime panics (slice/array bounds checks) and returned errors
both live in an `Except` error type.
-/

deriving instance DecidableEq for Except

namespace Gpio

/-- Little-endian byte serialisation of a 32-bit value. -/
def u32le (n : Nat) : List Nat :=
  [n % 256, n / 2 ^ 8 % 256, n / 2 ^ 16 % 256, n / 2 ^ 24 % 256]

/-- Little-endian byte serialisation of a 64-bit value. -/
def u64le (n : Nat) : List Nat :=
  [n % 256, n / 2 ^ 8 % 256, n / 2 ^ 16 % 256, n / 2 ^ 24 % 256,
   n / 2 ^ 32 % 256, n / 2 ^ 40 % 256, n / 2 ^ 48 % 256, n / 2 ^ 56 % 256]

/-- A list of bytes read as a Lean string (Go strings are byte strings; all
strings in this development are ASCII). -/
def byteStr (l : List Nat) : String := String.mk (l.map Char.ofNat)

/-- `C.GoString(p)`: starting at `p`, reads bytes up to (not including) the
first zero byte.  It has no capacity bound: `mem` is all memory following `p`,
not just the field `p` points into. -/
def GoString (mem : List Nat) : String := byteStr (mem.takeWhile (· ≠ 0))

/-- The fixed-buffer-to-text rule as the specification words it: stop at the
first zero byte or at the buffer's capacity, whichever comes first; never
read past the buffer. -/
def fixedBufText (buf : List Nat) : String := byteStr (buf.takeWhile (· ≠ 0))

/-- Errors a query can surface: a `syscall.Errno`, an `os.PathError` as
returned by `os.OpenFile`, or a Go runtime bounds-check panic. -/
inductive GoError where
  | errno (e : Nat)
  | pathError (op : String) (path : String) (underlying : Nat)
  | indexOutOfRange
deriving DecidableEq

/-- Go conversion `syscall.Errno(err)` where `err : C.int`: `syscall.Errno`
has underlying type `uintptr` (64-bit), so a negative `C.int` sign-extends. -/
def intToErrno (i : Int) : Nat := (i % 2 ^ 64).toNat

/-! ## Chip info (`struct gpiochip_info`, `GetChipInfo`) -/

/-- `struct gpiochip_info`: `char name[32]; char label[32]; __u32 lines;`. -/
structure RawChipInfo where
  name : List Nat
  label : List Nat
  lines : Nat
deriving DecidableEq

/-- Well-formed raw chip info: the two buffers have their C array lengths and
hold bytes. -/
def RawChipInfo.WF (r : RawChipInfo) : Prop :=
  r.name.length = 32 ∧ r.label.length = 32 ∧
    (∀ b ∈ r.name, b < 256) ∧ (∀ b ∈ r.label, b < 256) ∧ r.lines < 2 ^ 32

/-- The decoded chip info value (`GPIOChipInfo`). -/
structure GPIOChipInfo where
  Name : String
  Label : String
  Lines : Nat
deriving DecidableEq

/-- The decode part of `GetChipInfo`: `C.GoString(&info.name[0])` scans from
the start of `name` through whatever follows it in the struct;
`C.GoString(&info.label[0])` likewise from the start of `label`;
`Lines` is a direct copy. -/
def decodeChipInfo (raw : RawChipInfo) : GPIOChipInfo :=
  { Name := GoString (raw.name ++ raw.label ++ u32le raw.lines)
    Label := GoString (raw.label ++ u32le raw.lines)
    Lines := raw.lines }

/-- Outcome of the `GPIO_GET_CHIPINFO_IOCTL` call: the C function's return
value, the errno after the call, and the struct contents after the call. -/
structure ChipIoctlOutcome where
  ret : Int
  errnoAfter : Nat
  filled : RawChipInfo

/-- `GetChipInfo`: the Go code binds the C call's return value as `err`
(discarding the errno with `_`), tests `err != 0`, and on failure returns
`syscall.Errno(err)`; on success it decodes the filled struct. -/
def GetChipInfo (r : ChipIoctlOutcome) : Except GoError GPIOChipInfo :=
  if r.ret ≠ 0 then .error (.errno (intToErrno r.ret))
  else .ok (decodeChipInfo r.filled)

/-! ## Line attributes (`struct gpio_v2_line_attribute`) -/

def GPIO_V2_LINE_ATTR_ID_FLAGS : Nat := 1
def GPIO_V2_LINE_ATTR_ID_OUTPUT_VALUES : Nat := 2
def GPIO_V2_LINE_ATTR_ID_DEBOUNCE : Nat := 3
def GPIO_V2_LINE_NUM_ATTRS_MAX : Nat := 10

/-- `struct gpio_v2_line_attribute`: `__u32 id; __u32 padding;` then an
8-byte union.  `payload` is the union's 8 bytes as a 64-bit value. -/
structure RawLineAttr where
  id : Nat
  payload : Nat
deriving DecidableEq

/-- Union read `attr->flags` (`__aligned_u64`): the full payload. -/
def RawLineAttr.flags (a : RawLineAttr) : Nat := a.payload

/-- Union read `attr->values` (`__aligned_u64`): the full payload. -/
def RawLineAttr.values (a : RawLineAttr) : Nat := a.payload

/-- Union read `attr->debounce_period_us` (`__u32`): on the little-endian
target this is the payload's low 32 bits. -/
def RawLineAttr.debounce_period_us (a : RawLineAttr) : Nat := a.payload % 2 ^ 32

/-- The C helper `convert_line_attribute`: switch on `attr->id`, returning
the union field selected by the tag (as `__u64`), or 0 for unknown tags. -/
def convert_line_attribute (attr : RawLineAttr) : Nat :=
  if attr.id = GPIO_V2_LINE_ATTR_ID_FLAGS then attr.flags
  else if attr.id = GPIO_V2_LINE_ATTR_ID_OUTPUT_VALUES then attr.values
  else if attr.id = GPIO_V2_LINE_ATTR_ID_DEBOUNCE then attr.debounce_period_us
  else 0

/-- The decoded attribute variants (`GPIOLineAttributeFlags`,
`GPIOLineAttributeOutputValues`, `GPIOLineAttributeDebounce`). -/
inductive GPIOLineAttribute where
  | flags (Flags : Nat)
  | outputValues (Values : Nat)
  | debounce (DebouncePeriodMicroseconds : Nat)
deriving DecidableEq

/-- `GetID()` of each variant. -/
def GPIOLineAttribute.GetID : GPIOLineAttribute → Nat
  | .flags _ => GPIO_V2_LINE_ATTR_ID_FLAGS
  | .outputValues _ => GPIO_V2_LINE_ATTR_ID_OUTPUT_VALUES
  | .debounce _ => GPIO_V2_LINE_ATTR_ID_DEBOUNCE

/-! ## Line info (`struct gpio_v2_line_info`, `GetLineInfo`) -/

/-- `struct gpio_v2_line_info`: `char name[32]; char consumer[32];
__u32 offset; __u32 num_attrs; __aligned_u64 flags;
struct gpio_v2_line_attribute attrs[GPIO_V2_LINE_NUM_ATTRS_MAX];
__u32 padding[4];`. -/
structure RawLineInfo where
  name : List Nat
  consumer : List Nat
  offset : Nat
  num_attrs : Nat
  flags : Nat
  attrs : List RawLineAttr
  padding : List Nat
deriving DecidableEq

/-- Byte layout of one `struct gpio_v2_line_attribute`. -/
def lineAttrBytes (a : RawLineAttr) : List Nat :=
  u32le a.id ++ u32le 0 ++ u64le a.payload

/-- Byte layout of the fields of `struct gpio_v2_line_info` that follow the
`consumer` buffer. -/
def lineInfoTail (raw : RawLineInfo) : List Nat :=
  u32le raw.offset ++ u32le raw.num_attrs ++ u64le raw.flags ++
    (raw.attrs.map lineAttrBytes).flatten ++ (raw.padding.map u32le).flatten

/-- The Go loop `for i := 0; i < nAttrs; i++` over `info.attrs`, run for the
first `n` indices: each access `info.attrs[i]` is bounds-checked by the Go
runtime (panic when `i` is outside the fixed 10-entry array); the switch on
`info.attrs[i].id` appends the decoded variant for tags 1/2/3 and appends
nothing otherwise.  `uint32(value)` truncates to 32 bits. -/
def lineAttrLoop (attrs : List RawLineAttr) : Nat → Except GoError (List GPIOLineAttribute)
  | 0 => .ok []
  | n + 1 => do
    let acc ← lineAttrLoop attrs n
    match attrs[n]? with
    | none => .error .indexOutOfRange
    | some a =>
      let value := convert_line_attribute a
      if a.id = GPIO_V2_LINE_ATTR_ID_FLAGS then
        .ok (acc ++ [.flags value])
      else if a.id = GPIO_V2_LINE_ATTR_ID_OUTPUT_VALUES then
        .ok (acc ++ [.outputValues value])
      else if a.id = GPIO_V2_LINE_ATTR_ID_DEBOUNCE then
        .ok (acc ++ [.debounce (value % 2 ^ 32)])
      else
        .ok acc

/-- The decoded line info value (`GPIOLineInfo`). -/
structure GPIOLineInfo where
  Name : String
  Consumer : String
  Offset : Nat
  Flags : Nat
  Attributes : List GPIOLineAttribute
deriving DecidableEq

/-- Outcome of the `GPIO_V2_GET_LINEINFO_IOCTL` call. -/
structure LineIoctlOutcome where
  ret : Int
  errnoAfter : Nat
  filled : RawLineInfo

/-- `GetLineInfo`: same error handling slip as `GetChipInfo` (binds the C
return value as `err`, discards errno); on success runs the attribute loop
for `num_attrs` iterations and decodes the text/scalar fields
(`C.GoString` scanning from the start of `name` resp. `consumer`). -/
def GetLineInfo (r : LineIoctlOutcome) : Except GoError GPIOLineInfo :=
  if r.ret ≠ 0 then .error (.errno (intToErrno r.ret))
  else do
    let attributes ← lineAttrLoop r.filled.attrs r.filled.num_attrs
    .ok { Name := GoString (r.filled.name ++ r.filled.consumer ++ lineInfoTail r.filled)
          Consumer := GoString (r.filled.consumer ++ lineInfoTail r.filled)
          Offset := r.filled.offset
          Flags := r.filled.flags
          Attributes := attributes }

/-! ## Device handle (`OpenGPIODevice`) -/

/-- The device handle: wraps the open file descriptor. -/
structure GPIO where
  fd : Nat
deriving DecidableEq

/-- The ioctl requests the handle can issue. -/
inductive IoctlReq where
  | chipInfo
  | lineInfo (offset : Nat)
deriving DecidableEq

/-- Go `os.O_RDWR`. -/
def O_RDWR : Nat := 2

/-- `OpenGPIODevice(dev)`: calls `os.OpenFile(dev, os.O_RDWR, 0)` against the OS
(modelled as an oracle from path and flags to errno-or-descriptor; on
failure `os.OpenFile` returns an `*os.PathError{Op:"open", Path:dev, Err}`
which `OpenGPIODevice` propagates unchanged).  The second component is the list of
ioctl requests issued: `OpenGPIODevice` performs none.  On success it returns the
owned handle. -/
def OpenGPIODevice (osOpen : String → Nat → Except Nat Nat) (dev : String) :
    Except GoError GPIO × List IoctlReq :=
  match osOpen dev O_RDWR with
  | .error e => (.error (.pathError "open" dev e), [])
  | .ok fd => (.ok ⟨fd⟩, [])

/-! ## Line flags (`GPIOLineFlag` and its `String()` method) -/

def GPIOLineFlagUsed : Nat := 1 <<< 0
def GPIOLineFlagActiveLow : Nat := 1 <<< 1
def GPIOLineFlagInput : Nat := 1 <<< 2
def GPIOLineFlagOutput : Nat := 1 <<< 3
def GPIOLineFlagEdgeRising : Nat := 1 <<< 4
def GPIOLineFlagEdgeFalling : Nat := 1 <<< 5
def GPIOLineFlagOpenDrain : Nat := 1 <<< 6
def GPIOLineFlagOpenSource : Nat := 1 <<< 7
def GPIOLineFlagBiasPullUp : Nat := 1 <<< 8
def GPIOLineFlagBiasPullDown : Nat := 1 <<< 9
def GPIOLineFlagBiasDisabled : Nat := 1 <<< 10
def GPIOLineFlagEventClockRealtime : Nat := 1 <<< 11
def GPIOLineFlagEventClockHTE : Nat := 1 <<< 12

/-- Alias for the string type, usable inside `GPIOLineFlag.String` where the
plain name would refer to the method being defined. -/
abbrev Str := String

/-- `func (flag GPIOLineFlag) String() string`: build the `flags` slice with
one append per set named bit, in declaration order; return `"None"` when the
slice is empty, else `strings.Join(flags, "|")`. -/
def GPIOLineFlag.String (flag : Nat) : Str :=
  let flags : List Str := []
  let flags := if flag &&& GPIOLineFlagUsed ≠ 0 then flags ++ ["Used"] else flags
  let flags := if flag &&& GPIOLineFlagActiveLow ≠ 0 then flags ++ ["ActiveLow"] else flags
  let flags := if flag &&& GPIOLineFlagInput ≠ 0 then flags ++ ["Input"] else flags
  let flags := if flag &&& GPIOLineFlagOutput ≠ 0 then flags ++ ["Output"] else flags
  let flags := if flag &&& GPIOLineFlagEdgeRising ≠ 0 then flags ++ ["EdgeRising"] else flags
  let flags := if flag &&& GPIOLineFlagEdgeFalling ≠ 0 then flags ++ ["EdgeFalling"] else flags
  let flags := if flag &&& GPIOLineFlagOpenDrain ≠ 0 then flags ++ ["OpenDrain"] else flags
  let flags := if flag &&& GPIOLineFlagOpenSource ≠ 0 then flags ++ ["OpenSource"] else flags
  let flags := if flag &&& GPIOLineFlagBiasPullUp ≠ 0 then flags ++ ["BiasPullUp"] else flags
  let flags := if flag &&& GPIOLineFlagBiasPullDown ≠ 0 then flags ++ ["BiasPullDown"] else flags
  let flags := if flag &&& GPIOLineFlagBiasDisabled ≠ 0 then flags ++ ["BiasDisabled"] else flags
  let flags := if flag &&& GPIOLineFlagEventClockRealtime ≠ 0 then flags ++ ["EventClockRealtime"] else flags
  let flags := if flag &&& GPIOLineFlagEventClockHTE ≠ 0 then flags ++ ["EventClockHTE"] else flags
  if flags.length = 0 then "None" else "|".intercalate flags

/-! ## Specification-side definitions

These follow the specification's words and are compared against the
source-derived definitions above. -/

/-- The 13 named flag bits in declaration order, with their names. -/
def flagTable : List (Nat × String) :=
  [(0, "Used"), (1, "ActiveLow"), (2, "Input"), (3, "Output"),
   (4, "EdgeRising"), (5, "EdgeFalling"), (6, "OpenDrain"), (7, "OpenSource"),
   (8, "BiasPullUp"), (9, "BiasPullDown"), (10, "BiasDisabled"),
   (11, "EventClockRealtime"), (12, "EventClockHTE")]

/-- The names of the set named bits of `m`, in declaration order. -/
def setFlagNames (m : Nat) : List String :=
  (flagTable.filter (fun p => m.testBit p.1)).map Prod.snd

/-- The set named bits of `m` (bit positions), in declaration order. -/
def setFlagBits (m : Nat) : List Nat :=
  (flagTable.filter (fun p => m.testBit p.1)).map Prod.fst

/-- Interpreting a rendered flag string with knowledge of the declaration
order: a named bit is read as set exactly when its name is one of the
`|`-separated components of the string. -/
def readFlagBits (s : String) : List Nat :=
  (flagTable.filter (fun p => p.2.data ∈ s.data.splitOn '|')).map Prod.fst

/-- The attribute decode as the specification words it (§4.4): tag 1 maps to
`Flags` with the raw 64-bit payload, tag 2 to `OutputValues` with the raw
payload, tag 3 to `Debounce` with the payload's low 32 bits, any other tag
to nothing. -/
def decodeLineAttr (a : RawLineAttr) : Option GPIOLineAttribute :=
  if a.id = 1 then some (.flags a.payload)
  else if a.id = 2 then some (.outputValues a.payload)
  else if a.id = 3 then some (.debounce (a.payload % 2 ^ 32))
  else none

/-! ## Concrete inputs used in scenarios and counterexamples -/

/-- A raw chip info as the kernel would fill it for `gpiochip0` on a
Raspberry Pi: NUL-padded `name` and `label`, 54 lines. -/
def scenarioChipRaw : RawChipInfo :=
  ⟨"gpiochip0".data.map Char.toNat ++ List.replicate 23 0,
   "pinctrl-bcm2835".data.map Char.toNat ++ List.replicate 17 0, 54⟩

/-- A raw chip info whose 32-byte `name` buffer holds no zero byte
(32 times `'a'`); `label` is `"x"` NUL-padded. -/
def overrunChipRaw : RawChipInfo :=
  ⟨List.replicate 32 0x61, 0x78 :: List.replicate 31 0, 54⟩

/-- An all-zero raw chip info. -/
def zeroChipRaw : RawChipInfo := ⟨List.replicate 32 0, List.replicate 32 0, 0⟩

/-- An all-zero raw attribute entry. -/
def zeroAttr : RawLineAttr := ⟨0, 0⟩

/-- An all-zero raw line info. -/
def zeroLineRaw : RawLineInfo :=
  ⟨List.replicate 32 0, List.replicate 32 0, 0, 0, 0,
   List.replicate 10 zeroAttr, List.replicate 4 0⟩

/-- The specification's attribute scenario: `num_attrs = 2`, first entry tag 1
with payload `0x0C`, second entry tag 99 with payload `0xFF`. -/
def scenarioLineRaw : RawLineInfo :=
  ⟨List.replicate 32 0, List.replicate 32 0, 7, 2, 0,
   ⟨1, 0x0C⟩ :: ⟨99, 0xFF⟩ :: List.replicate 8 zeroAttr, List.replicate 4 0⟩

/-- A raw line info claiming `num_attrs = 11`, one more than the fixed
10-entry attribute array holds. -/
def overAttrsLineRaw : RawLineInfo :=
  ⟨List.replicate 32 0, List.replicate 32 0, 0, 11, 0,
   List.replicate 10 zeroAttr, List.replicate 4 0⟩

/-- An OS-open oracle that always fails with errno 2 (`ENOENT`). -/
def osOpenFail : String → Nat → Except Nat Nat := fun _ _ => .error 2

/-! ## Lemmas about flag rendering -/

/-- Go's bit test `flag & c != 0` for a single named bit `c = 1 << k` is the
`k`-th bit of `flag`. -/
theorem and_shift_ne_zero (m k : Nat) : (m &&& (1 <<< k) ≠ 0) ↔ m.testBit k = true := by
  rw [Nat.one_shiftLeft, Nat.and_two_pow]
  cases h : m.testBit k <;> simp [h]

/-- The sequential `append`-building in `GPIOLineFlag.String` is a fold over
the declaration-order flag table. -/
theorem stringFlag_eq_fold (m : Nat) :
    GPIOLineFlag.String m =
      (let l := flagTable.foldl
          (fun acc p => if m &&& (1 <<< p.1) ≠ 0 then acc ++ [p.2] else acc) []
       if l.length = 0 then "None" else "|".intercalate l) := rfl

theorem foldl_append_filter (m : Nat) (t : List (Nat × String)) (acc : List String) :
    t.foldl (fun acc p => if m &&& (1 <<< p.1) ≠ 0 then acc ++ [p.2] else acc) acc
      = acc ++ (t.filter (fun p => m.testBit p.1)).map Prod.snd := by
  induction t generalizing acc with
  | nil => simp
  | cons h t ih =>
    rw [List.foldl_cons, List.filter_cons]
    by_cases hc : m.testBit h.1
    · rw [if_pos ((and_shift_ne_zero m h.1).mpr hc), ih, if_pos hc]
      simp
    · rw [if_neg (fun hne => hc ((and_shift_ne_zero m h.1).mp hne)), ih, if_neg hc]

/-- `GPIOLineFlag.String` renders exactly the declaration-ordered names of
the set named bits, or `"None"` when there are none. -/
theorem stringFlag_eq (m : Nat) :
    GPIOLineFlag.String m =
      if setFlagNames m = [] then "None" else "|".intercalate (setFlagNames m) := by
  rw [stringFlag_eq_fold]
  simp only [foldl_append_filter, List.nil_append, setFlagNames, List.length_eq_zero]

theorem table_fst_lt : ∀ p ∈ flagTable, p.1 < 13 := by decide

/-- Claim C5: for every flag-set value, `GPIOLineFlag.String` produces the
string listing exactly the names of the set named bits, `|`-separated, in
declaration order; no set named bit renders the literal `None`; exactly one
set named bit renders that flag's name with no separator. -/
theorem c5_flag_render (m : Nat) :
    GPIOLineFlag.String m
        = (if setFlagNames m = [] then "None" else "|".intercalate (setFlagNames m)) ∧
      (setFlagNames m = [] → GPIOLineFlag.String m = "None") ∧
      (∀ s, setFlagNames m = [s] → GPIOLineFlag.String m = s) := by
  refine ⟨stringFlag_eq m, fun h => ?_, fun s hs => ?_⟩
  · rw [stringFlag_eq, if_pos h]
  · rw [stringFlag_eq, if_neg (by simp [hs]), hs]
    rfl

/-- Witness for C5: zero flags render `"None"`; the single flag `Input`
(bit 2) renders `"Input"`. -/
theorem c5_flag_render_witness :
    GPIOLineFlag.String 0 = "None" ∧ GPIOLineFlag.String 4 = "Input" :=
  ⟨(c5_flag_render 0).2.1 (by decide), (c5_flag_render 4).2.2 "Input" (by decide)⟩

/-- Claim C10: flag rendering depends only on the 13 defined bits — `String m`
equals `String (m % 2^13)` — and a mask with no defined bit set renders
`"None"`. -/
theorem c10_undefined_bits (m : Nat) :
    GPIOLineFlag.String m = GPIOLineFlag.String (m % 2 ^ 13) ∧
      ((∀ k, k < 13 → m.testBit k = false) → GPIOLineFlag.String m = "None") := by
  have hnames : setFlagNames (m % 2 ^ 13) = setFlagNames m := by
    unfold setFlagNames
    congr 1
    apply List.filter_congr
    intro p hp
    rw [Nat.testBit_mod_two_pow]
    simp [table_fst_lt p hp]
  constructor
  · rw [stringFlag_eq, stringFlag_eq, hnames]
  · intro h
    have hne : setFlagNames m = [] := by
      unfold setFlagNames
      rw [List.map_eq_nil_iff, List.filter_eq_nil_iff]
      intro p hp
      simp [h p.1 (table_fst_lt p hp)]
    rw [stringFlag_eq, if_pos hne]

/-- Witness for C10: a mask with only (undefined) bit 20 set renders the same
as its low 13 bits, namely `"None"`. -/
theorem c10_undefined_bits_witness :
    GPIOLineFlag.String (2 ^ 20) = GPIOLineFlag.String (2 ^ 20 % 2 ^ 13) ∧
      GPIOLineFlag.String (2 ^ 20) = "None" :=
  ⟨(c10_undefined_bits (2 ^ 20)).1, (c10_undefined_bits (2 ^ 20)).2 (by decide)⟩

/-! ## Round trip from the rendered string back to the flag set -/

theorem interGo_data (s acc : String) (l : List String) :
    (String.intercalate.go acc s l).data
      = acc.data ++ (l.map (fun x => s.data ++ x.data)).flatten := by
  induction l generalizing acc with
  | nil => simp [String.intercalate.go]
  | cons a t ih => simp [String.intercalate.go, ih]

theorem intercalate_cons (sep x : List Char) (xs : List (List Char)) :
    List.intercalate sep (x :: xs) = x ++ (xs.map (fun y => sep ++ y)).flatten := by
  induction xs generalizing x with
  | nil => simp [List.intercalate]
  | cons b t ih =>
    have hb := ih b
    rw [List.intercalate] at hb ⊢
    rw [List.intersperse_cons_cons, List.flatten_cons, List.flatten_cons, hb]
    simp

/-- `String.intercalate` is `List.intercalate` on the underlying character
lists. -/
theorem intercalate_data (s : String) (l : List String) :
    (String.intercalate s l).data = List.intercalate s.data (l.map String.data) := by
  cases l with
  | nil => rfl
  | cons a t =>
    show (String.intercalate.go a s t).data = _
    rw [interGo_data, List.map_cons, intercalate_cons]
    congr 1
    simp [List.map_map]
    rfl

theorem string_data_inj : Function.Injective String.data := by
  intro a b h
  cases a
  cases b
  exact congrArg String.mk h

theorem table_names_nodup : (flagTable.map Prod.snd).Nodup := by decide

theorem table_no_bar : ∀ p ∈ flagTable, '|' ∉ p.2.data := by decide

theorem mem_setFlagNames {m : Nat} {p : Nat × String} (hp : p ∈ flagTable) :
    p.2 ∈ setFlagNames m ↔ m.testBit p.1 = true := by
  unfold setFlagNames
  constructor
  · intro h
    rcases List.mem_map.mp h with ⟨q, hq, hq2⟩
    have hqt : q ∈ flagTable := List.mem_of_mem_filter hq
    have hqp : q = p := List.inj_on_of_nodup_map table_names_nodup hqt hp hq2
    subst hqp
    exact (List.mem_filter.mp hq).2
  · intro h
    exact List.mem_map.mpr ⟨p, List.mem_filter.mpr ⟨hp, h⟩, rfl⟩

/-- Claim C6: rendering a flag mask and then interpreting the rendered string
with knowledge of the declaration order reconstructs exactly the set of named
bits that were set. -/
theorem c6_round_trip (m : Nat) : readFlagBits (GPIOLineFlag.String m) = setFlagBits m := by
  rw [stringFlag_eq]
  by_cases h : setFlagNames m = []
  · rw [if_pos h]
    have h2 : setFlagBits m = [] := by
      unfold setFlagBits
      unfold setFlagNames at h
      rw [List.map_eq_nil_iff] at h ⊢
      exact h
    rw [h2]
    decide
  · rw [if_neg h]
    unfold readFlagBits setFlagBits
    congr 1
    apply List.filter_congr
    intro p hp
    have hsplit : (("|".intercalate (setFlagNames m)).data).splitOn '|'
        = (setFlagNames m).map String.data := by
      rw [intercalate_data, show ("|" : String).data = ['|'] from rfl]
      apply List.splitOn_intercalate
      · intro l hl
        rcases List.mem_map.mp hl with ⟨q, hq, rfl⟩
        unfold setFlagNames at hq
        rcases List.mem_map.mp hq with ⟨pq, hpq, rfl⟩
        exact table_no_bar pq (List.mem_of_mem_filter hpq)
      · simpa using h
    rw [hsplit]
    cases hm : m.testBit p.1
    · simp only [decide_eq_false_iff_not]
      intro hmem
      have hpm : p.2 ∈ setFlagNames m :=
        (List.mem_map_of_injective string_data_inj).mp hmem
      rw [mem_setFlagNames hp] at hpm
      rw [hm] at hpm
      cases hpm
    · simp only [decide_eq_true_eq]
      exact (List.mem_map_of_injective string_data_inj).mpr
        ((mem_setFlagNames hp).mpr hm)

/-! ## Lemmas about the attribute loop -/

/-- When `n` does not exceed the attribute array's length, the Go loop
decodes the first `n` entries as a `filterMap` of the per-entry decode. -/
theorem lineAttrLoop_ok (attrs : List RawLineAttr) (n : Nat) (h : n ≤ attrs.length) :
    lineAttrLoop attrs n = .ok ((attrs.take n).filterMap decodeLineAttr) := by
  induction n with
  | zero => simp [lineAttrLoop]
  | succ n ih =>
    have hn : n ≤ attrs.length := Nat.le_of_succ_le h
    have hlt : n < attrs.length := h
    rcases hget : attrs[n]? with _ | a
    · rw [List.getElem?_eq_none_iff] at hget
      omega
    · rw [lineAttrLoop, ih hn, List.take_succ, hget, List.filterMap_append]
      simp only [Except.bind, hget, Option.toList_some, List.filterMap_cons,
        List.filterMap_nil]
      unfold convert_line_attribute decodeLineAttr
      unfold GPIO_V2_LINE_ATTR_ID_FLAGS GPIO_V2_LINE_ATTR_ID_OUTPUT_VALUES
        GPIO_V2_LINE_ATTR_ID_DEBOUNCE
      by_cases h1 : a.id = 1
      · simp [h1, RawLineAttr.flags]
        rfl
      · by_cases h2 : a.id = 2
        · simp [h1, h2, RawLineAttr.values]
          rfl
        · by_cases h3 : a.id = 3
          · simp [h1, h2, h3, RawLineAttr.debounce_period_us, Nat.mod_mod]
            rfl
          · simp [h1, h2, h3]
            rfl

/-- When `n` exceeds the attribute array's length, the Go loop hits the
bounds check: a runtime panic, modelled as the `indexOutOfRange` error. -/
theorem lineAttrLoop_err (attrs : List RawLineAttr) (n : Nat) (h : attrs.length < n) :
    lineAttrLoop attrs n = .error .indexOutOfRange := by
  induction n with
  | zero => omega
  | succ n ih =>
    rcases Nat.lt_or_ge attrs.length n with hlt | hge
    · rw [lineAttrLoop, ih hlt]
      rfl
    · have hn : n = attrs.length := by omega
      rw [lineAttrLoop, lineAttrLoop_ok attrs n (by omega)]
      have hnone : attrs[n]? = none := by
        rw [List.getElem?_eq_none_iff]
        omega
      rw [hnone]
      rfl

/-- Claim C1: an entry with tag 1 decodes to `Flags` carrying the raw 64-bit
payload unmodified; tag 2 to `OutputValues` carrying the raw payload
unmodified; tag 3 to `Debounce` carrying the payload's low 32 bits (both in
the C helper `convert_line_attribute` and through the decode loop). -/
theorem c1_attr_decode (a : RawLineAttr) :
    (a.id = 1 → lineAttrLoop [a] 1 = .ok [.flags a.payload]
        ∧ convert_line_attribute a = a.payload) ∧
    (a.id = 2 → lineAttrLoop [a] 1 = .ok [.outputValues a.payload]
        ∧ convert_line_attribute a = a.payload) ∧
    (a.id = 3 → lineAttrLoop [a] 1 = .ok [.debounce (a.payload % 2 ^ 32)]
        ∧ convert_line_attribute a = a.payload % 2 ^ 32) := by
  have hloop := lineAttrLoop_ok [a] 1 (by simp)
  refine ⟨fun h1 => ⟨?_, ?_⟩, fun h2 => ⟨?_, ?_⟩, fun h3 => ⟨?_, ?_⟩⟩ <;>
    simp [hloop, decodeLineAttr, convert_line_attribute, RawLineAttr.flags,
      RawLineAttr.values, RawLineAttr.debounce_period_us,
      GPIO_V2_LINE_ATTR_ID_FLAGS, GPIO_V2_LINE_ATTR_ID_OUTPUT_VALUES,
      GPIO_V2_LINE_ATTR_ID_DEBOUNCE, *]

/-- Witness for C1: concrete entries with tags 1, 2 and 3; the tag-3 payload
`2^40 + 5` keeps only its low 32 bits, `5`. -/
theorem c1_attr_decode_witness :
    lineAttrLoop [⟨1, 7⟩] 1 = .ok [.flags 7] ∧
    lineAttrLoop [⟨2, 9⟩] 1 = .ok [.outputValues 9] ∧
    lineAttrLoop [⟨3, 2 ^ 40 + 5⟩] 1 = .ok [.debounce 5] := by
  refine ⟨((c1_attr_decode ⟨1, 7⟩).1 rfl).1, ((c1_attr_decode ⟨2, 9⟩).2.1 rfl).1, ?_⟩
  have h := ((c1_attr_decode ⟨3, 2 ^ 40 + 5⟩).2.2 rfl).1
  rw [h]
  decide

/-- Claim C2: a successful line-info decode applies the attribute decode to
the first `num_attrs` raw entries in original order, keeping exactly those
with tag in {1,2,3}; the output's length is the count of such entries. -/
theorem c2_attr_sequence (r : LineIoctlOutcome) (h0 : r.ret = 0)
    (hn : r.filled.num_attrs ≤ r.filled.attrs.length) :
    ∃ li, GetLineInfo r = .ok li ∧
      li.Attributes = (r.filled.attrs.take r.filled.num_attrs).filterMap decodeLineAttr ∧
      li.Attributes.length = (r.filled.attrs.take r.filled.num_attrs).countP
        (fun a => a.id == 1 || a.id == 2 || a.id == 3) := by
  have hloop := lineAttrLoop_ok r.filled.attrs r.filled.num_attrs hn
  refine ⟨{ Name := GoString (r.filled.name ++ r.filled.consumer ++ lineInfoTail r.filled),
            Consumer := GoString (r.filled.consumer ++ lineInfoTail r.filled),
            Offset := r.filled.offset, Flags := r.filled.flags,
            Attributes := (r.filled.attrs.take r.filled.num_attrs).filterMap decodeLineAttr },
         ?_, rfl, ?_⟩
  · unfold GetLineInfo
    rw [if_neg (by simp [h0]), hloop]
    rfl
  · rw [List.length_filterMap_eq_countP]
    apply List.countP_congr
    intro a _
    unfold decodeLineAttr
    by_cases h1 : a.id = 1
    · simp [h1]
    · by_cases h2 : a.id = 2
      · simp [h1, h2]
      · by_cases h3 : a.id = 3
        · simp [h1, h2, h3]
        · simp [h1, h2, h3]

/-- Witness for C2: the specification's scenario (`num_attrs = 2`, entries
tag 1 payload `0x0C` and tag 99 payload `0xFF`) decodes to the length-1
sequence `[Flags 0x0C]`. -/
theorem c2_attr_sequence_witness :
    ∃ li, GetLineInfo ⟨0, 0, scenarioLineRaw⟩ = .ok li ∧
      li.Attributes = [.flags 0x0C] ∧ li.Attributes.length = 1 := by
  rcases c2_attr_sequence ⟨0, 0, scenarioLineRaw⟩ rfl (by decide) with ⟨li, h1, h2, h3⟩
  refine ⟨li, h1, ?_, ?_⟩
  · rw [h2]
    decide
  · rw [h3]
    decide

/-- Claim C8: with the fixed 10-entry attribute array, any successfully
decoded line info has at most `GPIO_V2_LINE_NUM_ATTRS_MAX` attributes, and a
raw struct whose `num_attrs` exceeds that capacity makes the decode fail
(the Go runtime's bounds-check, modelled as an error) instead of reading
out of range. -/
theorem c8_attr_bounds (r : LineIoctlOutcome)
    (hcap : r.filled.attrs.length = GPIO_V2_LINE_NUM_ATTRS_MAX) :
    (∀ li, GetLineInfo r = .ok li →
        li.Attributes.length ≤ GPIO_V2_LINE_NUM_ATTRS_MAX) ∧
    (r.ret = 0 → GPIO_V2_LINE_NUM_ATTRS_MAX < r.filled.num_attrs →
        GetLineInfo r = .error .indexOutOfRange) := by
  constructor
  · intro li hli
    unfold GetLineInfo at hli
    by_cases h0 : r.ret ≠ 0
    · rw [if_pos h0] at hli
      cases hli
    · rw [if_neg h0] at hli
      by_cases hn : r.filled.num_attrs ≤ r.filled.attrs.length
      · rw [lineAttrLoop_ok _ _ hn] at hli
        have hattr : li.Attributes
            = (r.filled.attrs.take r.filled.num_attrs).filterMap decodeLineAttr := by
          cases hli
          rfl
        rw [hattr]
        calc ((r.filled.attrs.take r.filled.num_attrs).filterMap decodeLineAttr).length
            ≤ (r.filled.attrs.take r.filled.num_attrs).length :=
              List.length_filterMap_le _ _
          _ ≤ r.filled.attrs.length := by
              rw [List.length_take]
              omega
          _ = GPIO_V2_LINE_NUM_ATTRS_MAX := hcap
      · rw [lineAttrLoop_err _ _ (by omega)] at hli
        cases hli
  · intro h0 hover
    unfold GetLineInfo
    rw [if_neg (by simp [h0]), lineAttrLoop_err _ _ (by omega)]
    rfl

/-- Witness for C8: a raw line info with `num_attrs = 11` over the 10-entry
array fails with the bounds-check error. -/
theorem c8_attr_bounds_witness :
    GetLineInfo ⟨0, 0, overAttrsLineRaw⟩ = .error .indexOutOfRange :=
  (c8_attr_bounds ⟨0, 0, overAttrsLineRaw⟩ (by decide)).2 rfl (by decide)

/-! ## Text decoding and error propagation of the two queries -/

/-- A NUL-terminated buffer is decoded the same whether or not further bytes
follow it in memory. -/
theorem takeWhile_append_zero (l r : List Nat) (h : 0 ∈ l) :
    (l ++ r).takeWhile (· ≠ 0) = l.takeWhile (· ≠ 0) := by
  induction l with
  | nil => cases h
  | cons a t ih =>
    by_cases ha : a = 0
    · subst ha
      simp [List.takeWhile_cons]
    · rcases List.mem_cons.mp h with heq | hmem
      · exact absurd heq.symm ha
      · simp only [List.cons_append, List.takeWhile_cons, ih hmem]

/-- Claim C7: a successful chip-info query always decodes (no failure path),
extracting `Name` and `Label` by the fixed-buffer-to-text rule — provided
each 32-byte buffer is NUL-terminated — and `Lines` as a direct copy. -/
theorem c7_chip_decode (r : ChipIoctlOutcome) (h0 : r.ret = 0)
    (hname : 0 ∈ r.filled.name) (hlabel : 0 ∈ r.filled.label) :
    GetChipInfo r = .ok { Name := fixedBufText r.filled.name,
                          Label := fixedBufText r.filled.label,
                          Lines := r.filled.lines } := by
  unfold GetChipInfo
  rw [if_neg (by simp [h0])]
  unfold decodeChipInfo GoString fixedBufText byteStr
  have h1 : (r.filled.name ++ r.filled.label ++ u32le r.filled.lines).takeWhile (· ≠ 0)
      = r.filled.name.takeWhile (· ≠ 0) := by
    rw [List.append_assoc]
    exact takeWhile_append_zero _ _ hname
  have h2 : (r.filled.label ++ u32le r.filled.lines).takeWhile (· ≠ 0)
      = r.filled.label.takeWhile (· ≠ 0) := takeWhile_append_zero _ _ hlabel
  rw [h1, h2]

/-- Witness for C7: the specification's scenario — `name="gpiochip0"`,
`label="pinctrl-bcm2835"`, `lines=54` — decodes to exactly those values. -/
theorem c7_chip_decode_witness :
    GetChipInfo ⟨0, 0, scenarioChipRaw⟩
      = .ok { Name := "gpiochip0", Label := "pinctrl-bcm2835", Lines := 54 } := by
  rw [c7_chip_decode ⟨0, 0, scenarioChipRaw⟩ rfl (by decide) (by decide)]
  decide

/-- Counter-evidence for C3: on a raw chip info whose 32-byte `name` buffer
holds no zero byte, the code's `C.GoString` scan reads 33 bytes — past the
buffer's capacity, into the `label` field — whereas the specification's
fixed-buffer rule stops at the 32-byte capacity. -/
theorem c3_text_overrun :
    overrunChipRaw.name.length = 32 ∧
    (decodeChipInfo overrunChipRaw).Name.length = 33 ∧
    (decodeChipInfo overrunChipRaw).Name = byteStr (List.replicate 32 0x61 ++ [0x78]) ∧
    (fixedBufText overrunChipRaw.name).length = 32 := by decide

/-- Counter-evidence for C4: when the ioctl fails returning -1 with errno 19
(`ENODEV`), both queries wrap `syscall.Errno(-1)` — the sign-extended return
status, `2^64 - 1` — not the errno 19, which the Go code discarded. -/
theorem c4_errno_discarded :
    GetChipInfo ⟨-1, 19, zeroChipRaw⟩ = .error (.errno (2 ^ 64 - 1)) ∧
    GetLineInfo ⟨-1, 19, zeroLineRaw⟩ = .error (.errno (2 ^ 64 - 1)) ∧
    (2 ^ 64 - 1 : Nat) ≠ 19 := by decide

/-- Claim C9: `OpenGPIODevice` issues no ioctl request; on OS-open failure it
fails with the `open` path error wrapping the underlying errno; on success
it returns the owned handle. -/
theorem c9_open (osOpen : String → Nat → Except Nat Nat) (dev : String) :
    (OpenGPIODevice osOpen dev).2 = [] ∧
    (∀ e, osOpen dev O_RDWR = .error e →
        (OpenGPIODevice osOpen dev).1 = .error (.pathError "open" dev e)) ∧
    (∀ fd, osOpen dev O_RDWR = .ok fd → (OpenGPIODevice osOpen dev).1 = .ok ⟨fd⟩) := by
  unfold OpenGPIODevice
  rcases h : osOpen dev O_RDWR with e | fd <;> simp [h]

/-- Witness for C9: opening `/dev/gpiochip999` when the OS reports errno 2
(`ENOENT`) yields the open error and performs no ioctl. -/
theorem c9_open_witness :
    (OpenGPIODevice osOpenFail "/dev/gpiochip999").1
        = .error (.pathError "open" "/dev/gpiochip999" 2) ∧
    (OpenGPIODevice osOpenFail "/dev/gpiochip999").2 = [] :=
  ⟨(c9_open osOpenFail "/dev/gpiochip999").2.1 2 rfl,
   (c9_open osOpenFail "/dev/gpiochip999").1⟩

end Gpio
